import Mathlib

/-!
# CleanPace — formal model of `cleanpace.py`

A shallow embedding of the two pure transforms of the CleanPace tool
(`read_run_style_table`, `extract_from_block` / `parse_speed_blocks`) and of
the optional join step of the "Run Both" tab, together with theorems settling
the specification claims about them.

Modelling conventions:
* Python strings are Lean `String`s; the string primitives the code uses
  (`strip`, `split`, `splitlines`, `in`, `lower`) are re-implemented over
  `List Char` so that they compute by structural recursion.  `splitlines`
  is modelled as splitting on `'\n'` only.
* Python `None` and pandas `NaN` are both `Option.none`; numeric values are
  exact rationals `ℚ`.
* Python's `round(x, 1)` is modelled as round-half-to-even at one decimal
  place on the exact rational value (`round1` below).
* `pandas.read_csv` is modelled in `read_csv`: lines are split on the
  separator; the header line gives the column names; a data row with more
  fields than the header is a parse error (`none`); shorter rows are padded
  with `NaN` cells; blank lines are skipped.  (Quoting, type inference and
  the index-column inference for uniformly-one-extra-field input are not
  modelled; no claim depends on them.)
* `pandas.merge(..., how="outer")` is modelled in `joinTables`; the model
  lists matched left rows first and unmatched right rows last, whereas
  pandas sorts outer-join keys — only the multiset of rows matters to the
  claims.
-/

set_option linter.unusedVariables false

/-! ## Rational rounding: Python's `round(x, 1)` -/

/-- Round-half-to-even of a rational to an integer: the semantics of Python's
built-in `round` applied to an exact value. -/
def rhe (q : ℚ) : ℤ :=
  let f := ⌊q⌋
  let r := q - f
  if r < 1/2 then f
  else if 1/2 < r then f + 1
  else if f % 2 = 0 then f else f + 1

/-- Model of Python's `round(x, 1)`: round half to even at one decimal place. -/
def round1 (q : ℚ) : ℚ := (rhe (10 * q) : ℚ) / 10

/-! ## Character-list string primitives -/

/-- Leading- and trailing-whitespace removal on characters: Python `str.strip()`. -/
def trimChars (cs : List Char) : List Char :=
  ((cs.dropWhile Char.isWhitespace).reverse.dropWhile Char.isWhitespace).reverse

/-- Python `str.strip()`. -/
def pyStrip (s : String) : String := ⟨trimChars s.data⟩

/-- Split a character list at every occurrence of `sep`, keeping empty pieces:
Python `str.split(sep)` for a one-character separator. -/
def splitOnChar (sep : Char) : List Char → List (List Char)
  | [] => [[]]
  | c :: cs =>
    let r := splitOnChar sep cs
    if c = sep then [] :: r
    else
      match r with
      | [] => [[c]]
      | h :: t => (c :: h) :: t

/-- ASCII lower-casing of a character list: Python `str.lower()` on the
ASCII titles the code compares against. -/
def lowerChars (cs : List Char) : List Char := cs.map Char.toLower

/-- Does `l` start with `p`? -/
def startsWithChars : List Char → List Char → Bool
  | [], _ => true
  | _ :: _, [] => false
  | p :: ps, c :: cs => p == c && startsWithChars ps cs

/-- Substring test: Python `pat in s`. -/
def containsChars (pat : List Char) : List Char → Bool
  | [] => startsWithChars pat []
  | c :: cs => startsWithChars pat (c :: cs) || containsChars pat cs

/-! ## Digit-run extraction: `re.findall(r'\d+', s)` -/

/-- Maximal runs of decimal digits in a character list. -/
def digitRuns : List Char → List (List Char)
  | [] => []
  | c :: cs =>
    let rest := digitRuns cs
    if c.isDigit then
      match cs, rest with
      | c' :: _, r :: rs => if c'.isDigit then (c :: r) :: rs else [c] :: rest
      | _, _ => [c] :: rest
    else rest

/-- The natural number a digit run denotes: `int` applied to a digit string. -/
def digitsToNat (cs : List Char) : ℕ :=
  cs.foldl (fun a c => a * 10 + (c.toNat - 48)) 0

/-- Model of `list(map(int, re.findall(r'\d+', s)))`. -/
def findallDigits (s : String) : List ℕ :=
  (digitRuns s.data).map digitsToNat

/-! ## The speed-block extractor -/

/-- One row as produced by `extract_from_block`: identity plus the four
numeric outputs, each `none` where Python yields `None`. -/
structure SpeedRow where
  horseName : String
  last : Option ℚ
  highest : Option ℚ
  avg3 : Option ℚ
  avgAll : Option ℚ
deriving DecidableEq

/-- The truncated figures line of a block:
`speed_str = block[3].strip().split('(')[0].strip()`. -/
def truncLine (block : List String) : String :=
  pyStrip ⟨(splitOnChar '(' (pyStrip (block.getD 3 "")).data).headD []⟩

/-- The figures of a block: the maximal digit runs of its truncated figures
line, as integers. -/
def figuresOf (block : List String) : List ℕ :=
  findallDigits (truncLine block)

/-- Model of `extract_from_block` (cleanpace.py lines 57-80): given a block of
lines, compute the speed metrics.  The figures line is line index 3, truncated
at the first `(`; figures are its maximal digit runs. -/
def extract_from_block (block : List String) : SpeedRow :=
  let horse_name := pyStrip (block.headD "")
  if block.length < 4 then ⟨horse_name, none, none, none, none⟩
  else if truncLine block = "" then ⟨horse_name, none, none, none, none⟩
  else
    let figures := figuresOf block
    if figures = [] then ⟨horse_name, none, none, none, none⟩
    else
      let last : ℚ := (figures.getLastD 0 : ℕ)
      let highest : ℚ := (figures.foldl Nat.max 0 : ℕ)
      let last3 := figures.drop (figures.length - 3)
      let avg3 := round1 ((last3.sum : ℚ) / (last3.length : ℚ))
      let avgAll := round1 ((figures.sum : ℚ) / (figures.length : ℚ))
      ⟨horse_name, some last, some highest, some avg3, some avgAll⟩

/-! ## The speed-block table -/

/-- One row of the final speed table, with the two derived columns. -/
structure SpeedFullRow where
  horseName : String
  last : Option ℚ
  highest : Option ℚ
  avg3 : Option ℚ
  avgAll : Option ℚ
  keyAvg : Option ℚ
  topRanked : String
deriving DecidableEq

/-- The non-empty stripped lines of the input:
`[line.strip() for line in raw.strip().splitlines() if line.strip()]`. -/
def pyLines (raw : String) : List String :=
  ((splitOnChar '\n' (trimChars raw.data)).map
      (fun l => (⟨trimChars l⟩ : String))).filter (· ≠ "")

/-- Fuel-driven chunking helper for `chunk11`. -/
def chunk11Fuel {α : Type} : ℕ → List α → List (List α)
  | 0, _ => []
  | _, [] => []
  | f + 1, x :: xs => (x :: xs.take 10) :: chunk11Fuel f (xs.drop 10)

/-- Partition a list into consecutive chunks of 11, the last possibly
shorter: `for i in range(0, len(lines), 11): block = lines[i:i+11]`. -/
def chunk11 {α : Type} (l : List α) : List (List α) := chunk11Fuel l.length l

/-- Column-wise maximum ignoring nulls: `Series.max(skipna=True)`, with
`none` for an all-null column (pandas' `NaN`). -/
def optMax (l : List (Option ℚ)) : Option ℚ :=
  l.foldl
    (fun acc v =>
      match acc, v with
      | none, v => v
      | some a, none => some a
      | some a, some b => some (max a b))
    none

/-- Equality test of a cell against a column maximum, with pandas `NaN`
semantics: a comparison involving a null is false. -/
def eqSome (v t : Option ℚ) : Bool :=
  match v, t with
  | some a, some b => a == b
  | _, _ => false

/-- The marker string produced by `mark_top`. -/
def topMarker : String := "✅ Top or Joint Top"

/-- Model of `avg_key` (cleanpace.py lines 122-133): the key average is the
mean of last/highest/avg3 rounded to one decimal, null if any input is null
(pandas turns a null input into a `NaN` result, observably the same null). -/
def avg_key (last highest avg3 : Option ℚ) : Option ℚ :=
  match last, highest, avg3 with
  | some a, some b, some c => some (round1 ((a + b + c) / 3))
  | _, _, _ => none

/-- Model of `mark_top` (cleanpace.py lines 113-118) for one row, given the
three column maxima. -/
def mark_top (r : SpeedRow) (tl th ta : Option ℚ) : String :=
  if (eqSome r.last tl && eqSome r.highest th && eqSome r.avg3 ta) = true
  then topMarker else ""

/-- The lines `parse_speed_blocks` chunks: the non-empty stripped input
lines, with a leading header line containing "Horse" dropped. -/
def speedLines (raw : String) : List String :=
  let lines0 := pyLines raw
  if lines0 ≠ [] ∧ containsChars "Horse".data (lines0.headD "").data = true
  then lines0.drop 1 else lines0

/-- The extracted per-block rows (`horses` in the source). -/
def speedBaseRows (raw : String) : List SpeedRow :=
  (chunk11 (speedLines raw)).map extract_from_block

/-- Attach the two derived columns to one extracted row, given the three
column maxima. -/
def finishRow (tl th ta : Option ℚ) (r : SpeedRow) : SpeedFullRow :=
  { horseName := r.horseName
    last := r.last
    highest := r.highest
    avg3 := r.avg3
    avgAll := r.avgAll
    keyAvg := avg_key r.last r.highest r.avg3
    topRanked := mark_top r tl th ta }

/-- Model of `parse_speed_blocks` (cleanpace.py lines 83-146): strip and drop
empty lines, drop a leading header line containing "Horse", chunk into blocks
of 11, extract each block, then add the joint-top marker and the key average. -/
def parse_speed_blocks (raw : String) : List SpeedFullRow :=
  let horses := speedBaseRows raw
  horses.map (finishRow (optMax (horses.map (·.last)))
    (optMax (horses.map (·.highest))) (optMax (horses.map (·.avg3))))

/-! ## The run-style reader -/

/-- A parsed delimited table: column names plus rows of optional string
cells (`none` is pandas `NaN` padding). -/
structure PTable where
  cols : List String
  rows : List (List (Option String))
deriving DecidableEq

/-- Model of `pandas.read_csv(StringIO(text), sep=sep, header=header)`
restricted to the behaviour the tool relies on: split lines on `'\n'`,
skip blank lines, split fields on `sep`; the line at index `header` gives the
column names; a data row with more fields than the header is a parse error;
shorter rows are padded with `NaN`.  `none` models a raised exception. -/
def read_csv (sep : Char) (text : List Char) (header : ℕ) : Option PTable :=
  let ls := (splitOnChar '\n' text).filter (· ≠ [])
  match ls.get? header with
  | none => none
  | some hline =>
    let cols := (splitOnChar sep hline).map (fun cs => (⟨cs⟩ : String))
    let dataRows := (ls.drop (header + 1)).map (fun l => splitOnChar sep l)
    if dataRows.any (fun r => cols.length < r.length) then none
    else
      some ⟨cols, dataRows.map (fun r =>
        (List.range cols.length).map
          (fun i => (r.get? i).map (fun cs => (⟨cs⟩ : String))))⟩

/-- The columns `read_run_style_table` keeps. -/
def wantedCols : List String := ["Horse", "Lto1", "Lto2", "Lto3", "Lto4", "Lto5"]

/-- A cell of the cleaned run-style table: the identity column keeps its
string, the Lto columns are coerced to numbers. -/
inductive RSCell where
  | str : Option String → RSCell
  | num : Option ℚ → RSCell
deriving DecidableEq

/-- The cleaned run-style table. -/
structure RSTable where
  cols : List String
  rows : List (List RSCell)
deriving DecidableEq

/-- All-digits check used by the numeral model. -/
def parseNatDigits (cs : List Char) : Option ℕ :=
  if cs ≠ [] ∧ cs.all Char.isDigit = true then some (digitsToNat cs) else none

/-- Model of `pd.to_numeric(x, errors="coerce")` on one cell: an optionally
signed decimal numeral parses to its rational value, anything else to `NaN`.
(Scientific notation is not modelled; no claim depends on it.) -/
def toNumeric (s : String) : Option ℚ :=
  let cs := trimChars s.data
  let signed : ℚ × List Char :=
    match cs with
    | '-' :: r => (-1, r)
    | '+' :: r => (1, r)
    | _ => (1, cs)
  match splitOnChar '.' signed.2 with
  | [intPart] => (parseNatDigits intPart).map (fun n => signed.1 * n)
  | [intPart, fracPart] =>
    if intPart = [] ∧ fracPart = [] then none
    else if intPart.all Char.isDigit = true ∧ fracPart.all Char.isDigit = true then
      some (signed.1 * ((digitsToNat intPart : ℚ)
        + (digitsToNat fracPart : ℚ) / (10 ^ fracPart.length)))
    else none
  | _ => none

/-- `df[present]` followed by `pd.to_numeric(..., errors="coerce")` on the
Lto columns: select the present wanted columns in wanted order and coerce
every column but "Horse" to numbers. -/
def subsetCoerce (d : PTable) (pres : List String) : RSTable :=
  ⟨pres, d.rows.map (fun r =>
    pres.map (fun c =>
      let cell := (r.get? (d.cols.indexOf c)).join
      if c = "Horse" then RSCell.str cell
      else RSCell.num (cell.bind toNumeric)))⟩

/-- The text `read_run_style_table` actually parses: stripped input, with a
leading literal "run style figure" title line (case-insensitively) removed. -/
def rsText (raw : String) : List Char :=
  let text0 := trimChars raw.data
  let lines := splitOnChar '\n' text0
  if lines ≠ [] ∧ lowerChars (trimChars (lines.headD [])) = "run style figure".data
  then (lines.drop 1).foldr
    (fun l acc => if acc = [] ∧ l = [] then l else
      match acc with
      | [] => l
      | _ => l ++ '\n' :: acc)
    []
  else text0

/-- First parse stage of `read_run_style_table`: try tab-delimited, fall back
to comma-delimited only when the tab parse raises. -/
def firstParse (text : List Char) : Option PTable :=
  match read_csv '\t' text 0 with
  | some d => some d
  | none => read_csv ',' text 0

/-- Retry stage with the header taken from the second line (`header=1`):
again tab first, comma only on a tab-parse error. -/
def retryParse (text : List Char) : Option PTable :=
  match read_csv '\t' text 1 with
  | some d => some d
  | none => read_csv ',' text 1

/-- Model of `read_run_style_table` (cleanpace.py lines 22-54).  `none`
models an uncaught parse exception. -/
def read_run_style_table (raw : String) : Option RSTable :=
  (firstParse (rsText raw)).bind (fun df =>
    let present := wantedCols.filter (· ∈ df.cols)
    if present = [] then
      (retryParse (rsText raw)).map
        (fun d => subsetCoerce d (wantedCols.filter (· ∈ d.cols)))
    else some (subsetCoerce df present))

/-! ## The join of the "Run Both" tab -/

/-- One row of the joined table: the (normalized) key, the speed-table row if
any, and the run-style row if any. -/
structure JoinedRow where
  key : String
  sp : Option SpeedFullRow
  rs : Option (List RSCell)
deriving DecidableEq

/-- `astype(str).str.strip()` on one identity cell; pandas renders a `NaN`
cell as the string "nan". -/
def stripCellStr (c : RSCell) : String :=
  match c with
  | RSCell.str (some s) => pyStrip s
  | RSCell.str none => "nan"
  | RSCell.num (some q) => "nan"
  | RSCell.num none => "nan"

/-- Replace the cell at index `ki` of a row by its stripped string form:
the `astype(str).str.strip()` applied to the identity column. -/
def stripKeyCell : ℕ → List RSCell → List RSCell
  | _, [] => []
  | 0, c :: cs => RSCell.str (some (stripCellStr c)) :: cs
  | k + 1, c :: cs => c :: stripKeyCell k cs

/-- Model of the join step (cleanpace.py lines 307-315): rename "Horse" to
"Horse Name", strip both identity columns, and outer-merge on "Horse Name".
`none` models the `KeyError` pandas raises when the run-style table has no
identity column.  Matched left rows come first, unmatched right rows last
(pandas additionally sorts outer-join keys; only the rows matter here). -/
def joinTables (sp : List SpeedFullRow) (rs : RSTable) : Option (List JoinedRow) :=
  let rsCols := rs.cols.map (fun c => if c = "Horse" then "Horse Name" else c)
  if "Horse Name" ∈ rsCols then
    let ki := rsCols.indexOf "Horse Name"
    let rsRows := rs.rows.map (stripKeyCell ki)
    let rowKey := fun (r : List RSCell) =>
      match r.get? ki with
      | some (RSCell.str (some s)) => s
      | _ => ""
    let spn := sp.map (fun r => { r with horseName := pyStrip r.horseName })
    let leftPart := spn.foldr
      (fun a acc =>
        let ms := rsRows.filter (fun b => rowKey b = a.horseName)
        (if ms = [] then [⟨a.horseName, some a, none⟩]
         else ms.map (fun b => (⟨a.horseName, some a, some b⟩ : JoinedRow))) ++ acc)
      []
    let rightPart := (rsRows.filter
        (fun b => spn.all (fun a => a.horseName ≠ rowKey b))).map
      (fun b => (⟨rowKey b, none, some b⟩ : JoinedRow))
    some (leftPart ++ rightPart)
  else none

/-- The "Run Both" pipeline up to the joined table (cleanpace.py lines
279-315): parse both inputs and outer-join them on the horse name. -/
def tab3_joined (rsRaw spRaw : String) : Option (List JoinedRow) :=
  (read_run_style_table rsRaw).bind
    (fun rsT => joinTables (parse_speed_blocks spRaw) rsT)

/-! ## Branch lemmas for `extract_from_block` -/

/-- A block of fewer than 4 lines yields the trimmed first line and nulls. -/
theorem extract_short (block : List String) (h : block.length < 4) :
    extract_from_block block = ⟨pyStrip (block.headD ""), none, none, none, none⟩ := by
  simp only [extract_from_block, if_pos h]

/-- A block with an empty truncated figures line yields nulls. -/
theorem extract_empty_line (block : List String) (h4 : ¬ block.length < 4)
    (ht : truncLine block = "") :
    extract_from_block block = ⟨pyStrip (block.headD ""), none, none, none, none⟩ := by
  simp only [extract_from_block, if_neg h4, if_pos ht]

/-- A block with no digit runs on its truncated figures line yields nulls. -/
theorem extract_no_figures (block : List String) (h4 : ¬ block.length < 4)
    (hf : figuresOf block = []) :
    extract_from_block block = ⟨pyStrip (block.headD ""), none, none, none, none⟩ := by
  simp only [extract_from_block, hf]
  split <;> simp

/-- The positive branch of `extract_from_block`, spelled out. -/
theorem extract_pos (block : List String) (h4 : ¬ block.length < 4)
    (ht : truncLine block ≠ "") (hf : figuresOf block ≠ []) :
    extract_from_block block =
      ⟨pyStrip (block.headD ""),
        some (((figuresOf block).getLastD 0 : ℕ) : ℚ),
        some (((figuresOf block).foldl Nat.max 0 : ℕ) : ℚ),
        some (round1
          ((((figuresOf block).drop ((figuresOf block).length - 3)).sum : ℚ) /
            (((figuresOf block).drop ((figuresOf block).length - 3)).length : ℚ))),
        some (round1 (((figuresOf block).sum : ℚ) / ((figuresOf block).length : ℚ)))⟩ := by
  simp only [extract_from_block, if_neg h4, if_neg ht, if_neg hf]

/-! ## Rounding lemmas -/

/-- Half-even rounding never exceeds an integer upper bound of its argument. -/
theorem rhe_le_intCast {q : ℚ} {n : ℤ} (h : q ≤ (n : ℚ)) : rhe q ≤ n := by
  have hfl : ⌊q⌋ ≤ n := by
    have := Int.floor_le_floor h
    simpa using this
  unfold rhe
  by_cases h1 : q - (⌊q⌋ : ℚ) < 1/2
  · simp only [if_pos h1]
    exact hfl
  · have hlt : ⌊q⌋ < n := by
      have hq : (⌊q⌋ : ℚ) < q := by
        have : (1/2 : ℚ) ≤ q - (⌊q⌋ : ℚ) := le_of_not_lt h1
        linarith
      have : (⌊q⌋ : ℚ) < (n : ℚ) := lt_of_lt_of_le hq h
      exact_mod_cast this
    simp only [if_neg h1]
    by_cases h2 : (1/2 : ℚ) < q - (⌊q⌋ : ℚ)
    · simp only [if_pos h2]
      omega
    · simp only [if_neg h2]
      by_cases h3 : ⌊q⌋ % 2 = 0
      · simp only [if_pos h3]
        exact le_of_lt hlt
      · simp only [if_neg h3]
        omega

/-- Rounding to one decimal never exceeds a natural upper bound of the
argument. -/
theorem round1_le_natCast {q : ℚ} {n : ℕ} (h : q ≤ (n : ℚ)) : round1 q ≤ (n : ℚ) := by
  have h10 : (10 : ℚ) * q ≤ ((10 * n : ℤ) : ℚ) := by push_cast; linarith
  have hr := rhe_le_intCast h10
  have : (rhe (10 * q) : ℚ) ≤ ((10 * n : ℤ) : ℚ) := by exact_mod_cast hr
  unfold round1
  rw [div_le_iff₀ (by norm_num : (0:ℚ) < 10)]
  push_cast at this ⊢
  linarith

/-! ## Fold-max lemmas -/

/-- The initial value is below the max-fold. -/
theorem init_le_foldl_max : ∀ (l : List ℕ) (a : ℕ), a ≤ l.foldl Nat.max a
  | [], a => le_refl a
  | x :: xs, a => le_trans (Nat.le_max_left a x) (init_le_foldl_max xs (Nat.max a x))

/-- Every member is below the max-fold. -/
theorem mem_le_foldl_max : ∀ (l : List ℕ) (a x : ℕ), x ∈ l → x ≤ l.foldl Nat.max a
  | [], a, x, hx => absurd hx (List.not_mem_nil x)
  | y :: ys, a, x, hx => by
    rcases List.mem_cons.mp hx with h | h
    · subst h
      exact le_trans (Nat.le_max_right a x) (init_le_foldl_max ys (Nat.max a x))
    · exact mem_le_foldl_max ys (Nat.max a y) x h

/-- On a non-empty list of naturals, `foldl Nat.max 0` computes the maximum
(`List.max?`). -/
theorem max?_eq_foldl_max (l : List ℕ) (h : l ≠ []) :
    l.max? = some (l.foldl Nat.max 0) := by
  cases l with
  | nil => exact absurd rfl h
  | cons a as =>
    show some (as.foldl Nat.max a) = some ((a :: as).foldl Nat.max 0)
    simp [List.foldl_cons, Nat.zero_max]

/-- The default-insensitive last element of a non-empty list is a member. -/
theorem getLastD_mem (l : List ℕ) (h : l ≠ []) : l.getLastD 0 ∈ l := by
  rw [List.getLastD_eq_getLast?, List.getLast?_eq_getLast l h]
  exact List.getLast_mem h

/-- Rounding the mean of a list of naturals stays below any upper bound of
its members. -/
theorem round1_mean_le_max (l : List ℕ) (M : ℕ) (hne : l ≠ [])
    (hb : ∀ x ∈ l, x ≤ M) :
    round1 ((l.sum : ℚ) / (l.length : ℚ)) ≤ (M : ℚ) := by
  have hlen : 0 < l.length := List.length_pos.mpr hne
  have hsum : l.sum ≤ l.length * M := by
    simpa [smul_eq_mul] using List.sum_le_card_nsmul l M hb
  apply round1_le_natCast
  rw [div_le_iff₀ (by exact_mod_cast hlen : (0:ℚ) < (l.length : ℚ))]
  calc (l.sum : ℚ) ≤ ((l.length * M : ℕ) : ℚ) := by exact_mod_cast hsum
    _ = (M : ℚ) * (l.length : ℚ) := by push_cast; ring

/-- An empty truncated figures line has no figures. -/
theorem figuresOf_eq_nil_of_truncLine (block : List String)
    (h : truncLine block = "") : figuresOf block = [] := by
  rw [figuresOf, h]
  rfl

/-! ## Claim C1 -/

/-- C1 counterexample: for the figures line "12 (12) 15 18 20" the code
truncates at the first '(' and keeps only the figure 12, so `last` is 12,
not 20 as the claim states. -/
theorem C1_counterexample :
    (extract_from_block ["Some Horse", "x", "y", "12 (12) 15 18 20"]).last = some 12 ∧
      (extract_from_block ["Some Horse", "x", "y", "12 (12) 15 18 20"]).last ≠ some 20 := by
  have h4 : ¬(["Some Horse", "x", "y", "12 (12) 15 18 20"] : List String).length < 4 := by
    decide
  have ht : truncLine ["Some Horse", "x", "y", "12 (12) 15 18 20"] ≠ "" := by decide
  have hfig : figuresOf ["Some Horse", "x", "y", "12 (12) 15 18 20"] = [12] := by decide
  have hf : figuresOf ["Some Horse", "x", "y", "12 (12) 15 18 20"] ≠ [] := by
    rw [hfig]; decide
  rw [extract_pos _ h4 ht hf, hfig]
  norm_num

/-- C1 (amended): for a speed block whose figures line is
"12 (12) 15 18 20", the line is truncated at the first '(' before digit runs
are extracted, leaving only the figure 12; hence last = 12, highest = 12,
avg3 = 12.0 and avgAll = 12.0. -/
theorem C1_truncation_at_paren :
    extract_from_block ["Some Horse", "x", "y", "12 (12) 15 18 20"] =
      ⟨"Some Horse", some 12, some 12, some 12, some 12⟩ := by
  have h4 : ¬(["Some Horse", "x", "y", "12 (12) 15 18 20"] : List String).length < 4 := by
    decide
  have ht : truncLine ["Some Horse", "x", "y", "12 (12) 15 18 20"] ≠ "" := by decide
  have hfig : figuresOf ["Some Horse", "x", "y", "12 (12) 15 18 20"] = [12] := by decide
  have hf : figuresOf ["Some Horse", "x", "y", "12 (12) 15 18 20"] ≠ [] := by
    rw [hfig]; decide
  rw [extract_pos _ h4 ht hf, hfig]
  have hr : round1 ((12 : ℚ) / 1) = 12 := by norm_num [round1, rhe]
  simp [SpeedRow.mk.injEq, hr]
  exact ⟨by decide, by norm_num [round1, rhe]⟩

/-! ## Claim C7 -/

/-- C7: a window of fewer than 4 lines yields the trimmed first line as the
identity and null for all four numeric outputs. -/
theorem C7_small_window_nulls (block : List String) (h0 : block ≠ [])
    (h : block.length < 4) :
    extract_from_block block = ⟨pyStrip (block.headD ""), none, none, none, none⟩ :=
  extract_short block h

/-- C7 witness: the one-line window ["  A  "]. -/
theorem C7_witness :
    (["  A  "] : List String) ≠ [] ∧ (["  A  "] : List String).length < 4 ∧
      extract_from_block ["  A  "] = ⟨pyStrip (["  A  "].headD ""), none, none, none, none⟩ :=
  ⟨by decide, by decide, C7_small_window_nulls ["  A  "] (by decide) (by decide)⟩

/-! ## Claim C5 -/

/-- C5: when the truncated figures line has at least one digit run,
`extract_from_block` returns the final figure, the maximum figure, the
rounded mean of the final three figures (of `min 3 n` figures), and the
rounded mean of all figures. -/
theorem C5_extract_metrics (block : List String) (h4 : 4 ≤ block.length)
    (hf : figuresOf block ≠ []) :
    ∃ m : ℕ, (figuresOf block).max? = some m ∧
      extract_from_block block =
        ⟨pyStrip (block.headD ""),
          some (((figuresOf block).getLastD 0 : ℕ) : ℚ),
          some ((m : ℕ) : ℚ),
          some (round1 (((((figuresOf block).reverse.take 3).sum : ℕ) : ℚ) /
            ((min 3 (figuresOf block).length : ℕ) : ℚ))),
          some (round1 ((((figuresOf block).sum : ℕ) : ℚ) /
            (((figuresOf block).length : ℕ) : ℚ)))⟩ := by
  have h4' : ¬ block.length < 4 := by omega
  have ht : truncLine block ≠ "" := fun h => hf (figuresOf_eq_nil_of_truncLine block h)
  refine ⟨(figuresOf block).foldl Nat.max 0, max?_eq_foldl_max _ hf, ?_⟩
  rw [extract_pos _ h4' ht hf]
  have hdrop : (figuresOf block).drop ((figuresOf block).length - 3) =
      ((figuresOf block).reverse.take 3).reverse := by
    rw [List.reverse_take]
    simp
  rw [hdrop]
  simp [List.sum_reverse, List.length_reverse, List.length_take]

/-- C5 witness: a block with figures line "10 11". -/
theorem C5_witness :
    4 ≤ (["A", "b", "c", "10 11"] : List String).length ∧
      figuresOf ["A", "b", "c", "10 11"] ≠ [] ∧
      (∃ m : ℕ, (figuresOf ["A", "b", "c", "10 11"]).max? = some m ∧
        extract_from_block ["A", "b", "c", "10 11"] =
          ⟨pyStrip ((["A", "b", "c", "10 11"] : List String).headD ""),
            some (((figuresOf ["A", "b", "c", "10 11"]).getLastD 0 : ℕ) : ℚ),
            some ((m : ℕ) : ℚ),
            some (round1 (((((figuresOf ["A", "b", "c", "10 11"]).reverse.take 3).sum : ℕ) : ℚ) /
              ((min 3 (figuresOf ["A", "b", "c", "10 11"]).length : ℕ) : ℚ))),
            some (round1 ((((figuresOf ["A", "b", "c", "10 11"]).sum : ℕ) : ℚ) /
              (((figuresOf ["A", "b", "c", "10 11"]).length : ℕ) : ℚ)))⟩) :=
  ⟨by decide, by decide, C5_extract_metrics ["A", "b", "c", "10 11"] (by decide) (by decide)⟩

/-! ## Claim C10 -/

/-- C10: whenever `extract_from_block` returns non-null metrics, the last
figure, the rounded mean of the last three, and the rounded mean of all
figures are each at most the highest figure. -/
theorem C10_bounded_by_highest (block : List String) (name : String) (a b c d : ℚ)
    (h : extract_from_block block = ⟨name, some a, some b, some c, some d⟩) :
    a ≤ b ∧ c ≤ b ∧ d ≤ b := by
  by_cases h4 : block.length < 4
  · rw [extract_short block h4] at h
    simp [SpeedRow.mk.injEq] at h
  · by_cases ht : truncLine block = ""
    · rw [extract_empty_line block h4 ht] at h
      simp [SpeedRow.mk.injEq] at h
    · by_cases hfg : figuresOf block = []
      · rw [extract_no_figures block h4 hfg] at h
        simp [SpeedRow.mk.injEq] at h
      · rw [extract_pos _ h4 ht hfg] at h
        simp only [SpeedRow.mk.injEq, Option.some.injEq] at h
        obtain ⟨-, ha, hb, hc, hd⟩ := h
        set figs := figuresOf block with hfigs
        set M := figs.foldl Nat.max 0 with hM
        have hbound : ∀ x ∈ figs, x ≤ M := fun x hx => mem_le_foldl_max figs 0 x hx
        refine ⟨?_, ?_, ?_⟩
        · rw [← ha, ← hb]
          exact_mod_cast hbound _ (getLastD_mem figs hfg)
        · rw [← hc, ← hb]
          have hne : figs.drop (figs.length - 3) ≠ [] := by
            have : 0 < figs.length := List.length_pos.mpr hfg
            rw [← List.length_pos, List.length_drop]
            omega
          exact round1_mean_le_max _ M hne
            (fun x hx => hbound x (List.drop_subset _ _ hx))
        · rw [← hd, ← hb]
          exact round1_mean_le_max _ M hfg hbound

/-- C10 witness: the block with figures "10 11". -/
theorem C10_witness :
    extract_from_block ["A", "b", "c", "10 11"] =
        ⟨"A", some 11, some 11, some (21/2), some (21/2)⟩ ∧
      (11 : ℚ) ≤ 11 ∧ (21/2 : ℚ) ≤ 11 ∧ (21/2 : ℚ) ≤ 11 := by
  have h4 : ¬(["A", "b", "c", "10 11"] : List String).length < 4 := by decide
  have ht : truncLine ["A", "b", "c", "10 11"] ≠ "" := by decide
  have hfig : figuresOf ["A", "b", "c", "10 11"] = [10, 11] := by decide
  have hf : figuresOf ["A", "b", "c", "10 11"] ≠ [] := by rw [hfig]; decide
  have heq : extract_from_block ["A", "b", "c", "10 11"] =
      ⟨"A", some 11, some 11, some (21/2), some (21/2)⟩ := by
    rw [extract_pos _ h4 ht hf, hfig]
    have hr : round1 ((21 : ℚ) / 2) = 21/2 := by norm_num [round1, rhe]
    simp [SpeedRow.mk.injEq]
    exact ⟨by decide, by norm_num [round1, rhe]⟩
  exact ⟨heq, (C10_bounded_by_highest _ _ _ _ _ _ heq).1,
    (C10_bounded_by_highest _ _ _ _ _ _ heq).2.1,
    (C10_bounded_by_highest _ _ _ _ _ _ heq).2.2⟩

/-! ## Lemmas about the final speed table -/

/-- `eqSome` holds exactly when both cells hold the same value. -/
theorem eqSome_true_iff (v t : Option ℚ) :
    eqSome v t = true ↔ ∃ a : ℚ, v = some a ∧ t = some a := by
  cases v with
  | none => simp [eqSome]
  | some a =>
    cases t with
    | none => simp [eqSome]
    | some b =>
      simp only [eqSome, beq_iff_eq, Option.some.injEq]
      constructor
      · rintro rfl; exact ⟨a, rfl, rfl⟩
      · rintro ⟨c, rfl, rfl⟩; rfl

/-- `mark_top` produces the marker exactly when all three cells equal the
respective maxima. -/
theorem mark_top_eq_iff (r : SpeedRow) (tl th ta : Option ℚ) :
    mark_top r tl th ta = topMarker ↔
      (eqSome r.last tl = true ∧ eqSome r.highest th = true ∧
        eqSome r.avg3 ta = true) := by
  by_cases h : (eqSome r.last tl && eqSome r.highest th && eqSome r.avg3 ta) = true
  · rw [mark_top, if_pos h]
    simp only [Bool.and_eq_true] at h
    simp [h.1.1, h.1.2, h.2]
  · rw [mark_top, if_neg h]
    constructor
    · intro hc
      exact absurd hc (by decide : ("" : String) ≠ topMarker)
    · rintro ⟨h1, h2, h3⟩
      exact absurd (by simp [Bool.and_eq_true, h1, h2, h3]) h

/-- The `last` column of the final table is that of the extracted rows. -/
theorem parse_map_last (raw : String) :
    (parse_speed_blocks raw).map (·.last) = (speedBaseRows raw).map (·.last) := by
  simp only [parse_speed_blocks, List.map_map]
  rfl

/-- The `highest` column of the final table is that of the extracted rows. -/
theorem parse_map_highest (raw : String) :
    (parse_speed_blocks raw).map (·.highest) = (speedBaseRows raw).map (·.highest) := by
  simp only [parse_speed_blocks, List.map_map]
  rfl

/-- The `avg3` column of the final table is that of the extracted rows. -/
theorem parse_map_avg3 (raw : String) :
    (parse_speed_blocks raw).map (·.avg3) = (speedBaseRows raw).map (·.avg3) := by
  simp only [parse_speed_blocks, List.map_map]
  rfl

/-! ## Claim C3 -/

/-- C3: a row of the speed table carries the top marker iff its last, highest
and avg3 cells are non-null and each equals the column-wise maximum (computed
ignoring nulls) of its column. -/
theorem C3_joint_top_iff (raw : String) (row : SpeedFullRow)
    (hrow : row ∈ parse_speed_blocks raw) :
    (row.topRanked = topMarker ↔
      ∃ a b c : ℚ, row.last = some a ∧ row.highest = some b ∧ row.avg3 = some c ∧
        optMax ((parse_speed_blocks raw).map (·.last)) = some a ∧
        optMax ((parse_speed_blocks raw).map (·.highest)) = some b ∧
        optMax ((parse_speed_blocks raw).map (·.avg3)) = some c) := by
  rw [parse_map_last, parse_map_highest, parse_map_avg3]
  simp only [parse_speed_blocks] at hrow
  obtain ⟨r, hr, rfl⟩ := List.mem_map.mp hrow
  simp only [finishRow]
  rw [mark_top_eq_iff]
  simp only [eqSome_true_iff]
  constructor
  · rintro ⟨⟨a, ha, hta⟩, ⟨b, hb, htb⟩, ⟨c, hc, htc⟩⟩
    exact ⟨a, b, c, ha, hb, hc, hta, htb, htc⟩
  · rintro ⟨a, b, c, ha, hb, hc, hta, htb, htc⟩
    exact ⟨⟨a, ha, hta⟩, ⟨b, hb, htb⟩, ⟨c, hc, htc⟩⟩

/-- C3 witness: the single-block input "A\nx\ny\n10", whose one row attains
all three maxima and carries the marker. -/
theorem C3_witness :
    (⟨"A", some 10, some 10, some 10, some 10, some 10, topMarker⟩ : SpeedFullRow) ∈
        parse_speed_blocks "A\nx\ny\n10" ∧
      (⟨"A", some 10, some 10, some 10, some 10, some 10, topMarker⟩ :
        SpeedFullRow).topRanked = topMarker := by
  have hx : extract_from_block ["A", "x", "y", "10"] =
      ⟨"A", some 10, some 10, some 10, some 10⟩ := by
    have h4 : ¬(["A", "x", "y", "10"] : List String).length < 4 := by decide
    have ht : truncLine ["A", "x", "y", "10"] ≠ "" := by decide
    have hfig : figuresOf ["A", "x", "y", "10"] = [10] := by decide
    have hf : figuresOf ["A", "x", "y", "10"] ≠ [] := by rw [hfig]; decide
    rw [extract_pos _ h4 ht hf, hfig]
    simp [SpeedRow.mk.injEq]
    exact ⟨by decide, by norm_num [round1, rhe]⟩
  have hbase : speedBaseRows "A\nx\ny\n10" = [⟨"A", some 10, some 10, some 10, some 10⟩] := by
    have hlines : speedLines "A\nx\ny\n10" = ["A", "x", "y", "10"] := by decide
    have hchunk : chunk11 (["A", "x", "y", "10"] : List String) = [["A", "x", "y", "10"]] := by
      decide
    rw [speedBaseRows, hlines, hchunk, List.map_cons, List.map_nil, hx]
  have hparse : parse_speed_blocks "A\nx\ny\n10" =
      [⟨"A", some 10, some 10, some 10, some 10, some 10, topMarker⟩] := by
    simp only [parse_speed_blocks]
    rw [hbase]
    simp [finishRow, optMax, avg_key, mark_top, eqSome]
    norm_num [round1, rhe]
  have hmem : (⟨"A", some 10, some 10, some 10, some 10, some 10, topMarker⟩ : SpeedFullRow) ∈
      parse_speed_blocks "A\nx\ny\n10" := by
    rw [hparse]
    exact List.mem_singleton.mpr rfl
  have hol : optMax ((parse_speed_blocks "A\nx\ny\n10").map (·.last)) = some 10 := by
    rw [hparse]; simp [optMax]
  have hoh : optMax ((parse_speed_blocks "A\nx\ny\n10").map (·.highest)) = some 10 := by
    rw [hparse]; simp [optMax]
  have hoa : optMax ((parse_speed_blocks "A\nx\ny\n10").map (·.avg3)) = some 10 := by
    rw [hparse]; simp [optMax]
  exact ⟨hmem, (C3_joint_top_iff _ _ hmem).mpr ⟨10, 10, 10, rfl, rfl, rfl, hol, hoh, hoa⟩⟩

/-! ## Claim C8 -/

/-- C8: the key average of a speed-table row is the rounded mean of last,
highest and avg3 when all three are non-null, and null when any is null. -/
theorem C8_key_average (raw : String) (row : SpeedFullRow)
    (hrow : row ∈ parse_speed_blocks raw) :
    (∀ a b c : ℚ, row.last = some a → row.highest = some b → row.avg3 = some c →
        row.keyAvg = some (round1 ((a + b + c) / 3))) ∧
      ((row.last = none ∨ row.highest = none ∨ row.avg3 = none) →
        row.keyAvg = none) := by
  simp only [parse_speed_blocks] at hrow
  obtain ⟨r, hr, rfl⟩ := List.mem_map.mp hrow
  simp only [finishRow]
  constructor
  · intro a b c ha hb hc
    simp [avg_key, ha, hb, hc]
  · rintro (hn | hn | hn) <;> simp [avg_key, hn]

/-- C8 witness: the single-block input "B\nx\ny\n7". -/
theorem C8_witness :
    (⟨"B", some 7, some 7, some 7, some 7, some 7, topMarker⟩ : SpeedFullRow) ∈
        parse_speed_blocks "B\nx\ny\n7" ∧
      (⟨"B", some 7, some 7, some 7, some 7, some 7, topMarker⟩ :
        SpeedFullRow).keyAvg = some (round1 (((7:ℚ) + 7 + 7) / 3)) := by
  have hx : extract_from_block ["B", "x", "y", "7"] =
      ⟨"B", some 7, some 7, some 7, some 7⟩ := by
    have h4 : ¬(["B", "x", "y", "7"] : List String).length < 4 := by decide
    have ht : truncLine ["B", "x", "y", "7"] ≠ "" := by decide
    have hfig : figuresOf ["B", "x", "y", "7"] = [7] := by decide
    have hf : figuresOf ["B", "x", "y", "7"] ≠ [] := by rw [hfig]; decide
    rw [extract_pos _ h4 ht hf, hfig]
    simp [SpeedRow.mk.injEq]
    exact ⟨by decide, by norm_num [round1, rhe]⟩
  have hbase : speedBaseRows "B\nx\ny\n7" = [⟨"B", some 7, some 7, some 7, some 7⟩] := by
    have hlines : speedLines "B\nx\ny\n7" = ["B", "x", "y", "7"] := by decide
    have hchunk : chunk11 (["B", "x", "y", "7"] : List String) = [["B", "x", "y", "7"]] := by
      decide
    rw [speedBaseRows, hlines, hchunk, List.map_cons, List.map_nil, hx]
  have hparse : parse_speed_blocks "B\nx\ny\n7" =
      [⟨"B", some 7, some 7, some 7, some 7, some 7, topMarker⟩] := by
    simp only [parse_speed_blocks]
    rw [hbase]
    simp [finishRow, optMax, avg_key, mark_top, eqSome]
    norm_num [round1, rhe]
  have hmem : (⟨"B", some 7, some 7, some 7, some 7, some 7, topMarker⟩ : SpeedFullRow) ∈
      parse_speed_blocks "B\nx\ny\n7" := by
    rw [hparse]
    exact List.mem_singleton.mpr rfl
  exact ⟨hmem, (C8_key_average _ _ hmem).1 7 7 7 rfl rfl rfl⟩

/-! ## Claim C6 -/

/-- C6: when the first parse stage succeeds and some wanted columns are
present, the output columns are exactly the wanted columns present in the
input (`wantedCols.filter (· ∈ t.cols)` is the intersection of the wanted
columns with the input columns, in wanted order), with missing columns
omitted and no error raised. -/
theorem C6_wanted_intersection (raw : String) (t : PTable)
    (hp : firstParse (rsText raw) = some t)
    (hne : wantedCols.filter (· ∈ t.cols) ≠ []) :
    (read_run_style_table raw).map RSTable.cols =
      some (wantedCols.filter (· ∈ t.cols)) := by
  simp only [read_run_style_table, hp, Option.some_bind]
  rw [if_neg hne]
  simp [subsetCoerce]

/-- C6 witness: a tab-delimited input with columns Horse, Lto1, Lto3 only
(Lto2, Lto4, Lto5 missing). -/
theorem C6_witness :
    firstParse (rsText "Horse\tLto1\tLto3\nA\t1\t2") =
        some ⟨["Horse", "Lto1", "Lto3"], [[some "A", some "1", some "2"]]⟩ ∧
      wantedCols.filter
          (· ∈ (⟨["Horse", "Lto1", "Lto3"],
            [[some "A", some "1", some "2"]]⟩ : PTable).cols) ≠ [] ∧
      (read_run_style_table "Horse\tLto1\tLto3\nA\t1\t2").map RSTable.cols =
        some (wantedCols.filter
          (· ∈ (⟨["Horse", "Lto1", "Lto3"],
            [[some "A", some "1", some "2"]]⟩ : PTable).cols)) :=
  ⟨by decide, by decide,
    C6_wanted_intersection "Horse\tLto1\tLto3\nA\t1\t2" _ (by decide) (by decide)⟩

/-! ## Claim C4 -/

/-- C4 counterexample: the comma-delimited input "Horse,Lto1\nA,5" contains
the wanted columns Horse and Lto1 under comma parsing, yet
`read_run_style_table` never falls back to comma parsing on it — the
tab parse succeeds with the single column "Horse,Lto1" — so the output has no
columns at all. -/
theorem C4_counterexample :
    (read_csv ',' (rsText "Horse,Lto1\nA,5") 0).map PTable.cols =
        some ["Horse", "Lto1"] ∧
      (read_run_style_table "Horse,Lto1\nA,5").map RSTable.cols = some [] := by
  exact ⟨by decide, by decide⟩

/-- C4 (amended): the fall back to comma parsing happens only when the tab
parse raises an error; for every input whose tab parse errors and whose comma
parse yields a table containing wanted columns, the output contains exactly
those columns. -/
theorem C4_fallback_order (raw : String) (t : PTable)
    (htab : read_csv '\t' (rsText raw) 0 = none)
    (hcsv : read_csv ',' (rsText raw) 0 = some t)
    (hne : wantedCols.filter (· ∈ t.cols) ≠ []) :
    (read_run_style_table raw).map RSTable.cols =
      some (wantedCols.filter (· ∈ t.cols)) := by
  have hfp : firstParse (rsText raw) = some t := by
    simp [firstParse, htab, hcsv]
  simp only [read_run_style_table, hfp, Option.some_bind]
  rw [if_neg hne]
  simp [subsetCoerce]

/-- C4 witness: a comma-delimited input whose second line has extra tab
fields, so that the tab parse errors and the comma fallback fires. -/
theorem C4_witness :
    read_csv '\t' (rsText "Horse,Lto1\nA,5\tx\ty") 0 = none ∧
      read_csv ',' (rsText "Horse,Lto1\nA,5\tx\ty") 0 =
        some ⟨["Horse", "Lto1"], [[some "A", some "5\tx\ty"]]⟩ ∧
      (read_run_style_table "Horse,Lto1\nA,5\tx\ty").map RSTable.cols =
        some (wantedCols.filter
          (· ∈ (⟨["Horse", "Lto1"],
            [[some "A", some "5\tx\ty"]]⟩ : PTable).cols)) :=
  ⟨by decide, by decide,
    C4_fallback_order "Horse,Lto1\nA,5\tx\ty" _ (by decide) (by decide) (by decide)⟩

/-! ## CSV rendering and claim C9 -/

/-- A fixed rendering of a rational for CSV export.  (The exact number
format of `DataFrame.to_csv` is irrelevant to the determinism claim; any
fixed function of the table works.) -/
def renderQ (q : ℚ) : String :=
  if q.den = 1 then toString q.num
  else toString q.num ++ "/" ++ toString q.den

/-- Render an optional numeric cell; pandas exports `NaN` as empty. -/
def renderOptQ : Option ℚ → String
  | none => ""
  | some q => renderQ q

/-- Model of `to_csv(index=False)` for the speed table: header line plus one
comma-joined line per row. -/
def speedCsv (rows : List SpeedFullRow) : String :=
  String.intercalate "\n"
    (String.intercalate ","
        ["Horse Name", "Last Race Speed Figure", "Highest Speed Figure",
          "Avg of Last 3", "Avg of All", "Key Speed Factors Average",
          "Top Ranked?"] ::
      rows.map (fun r => String.intercalate ","
        [r.horseName, renderOptQ r.last, renderOptQ r.highest, renderOptQ r.avg3,
          renderOptQ r.avgAll, renderOptQ r.keyAvg, r.topRanked]))

/-- Render one run-style cell for CSV export. -/
def renderRSCell : RSCell → String
  | RSCell.str (some s) => s
  | RSCell.str none => ""
  | RSCell.num (some q) => renderQ q
  | RSCell.num none => ""

/-- Model of `to_csv(index=False)` for the cleaned run-style table; a failed
parse renders as the empty export. -/
def rsCsv : Option RSTable → String
  | none => ""
  | some t => String.intercalate "\n"
      (String.intercalate "," t.cols ::
        t.rows.map (fun r => String.intercalate "," (r.map renderRSCell)))

/-- C9: both transforms are deterministic — running them twice on the same
input string produces identical tables and hence byte-identical CSV output. -/
theorem C9_deterministic (raw₁ raw₂ : String) (h : raw₁ = raw₂) :
    parse_speed_blocks raw₁ = parse_speed_blocks raw₂ ∧
      read_run_style_table raw₁ = read_run_style_table raw₂ ∧
      speedCsv (parse_speed_blocks raw₁) = speedCsv (parse_speed_blocks raw₂) ∧
      rsCsv (read_run_style_table raw₁) = rsCsv (read_run_style_table raw₂) := by
  subst h
  exact ⟨rfl, rfl, rfl, rfl⟩

/-- C9 witness: two runs on the same concrete input. -/
theorem C9_witness :
    parse_speed_blocks "A\nx\ny\n10 11" = parse_speed_blocks "A\nx\ny\n10 11" ∧
      read_run_style_table "Horse\tLto1\nA\t1" =
        read_run_style_table "Horse\tLto1\nA\t1" ∧
      speedCsv (parse_speed_blocks "A\nx\ny\n10 11") =
        speedCsv (parse_speed_blocks "A\nx\ny\n10 11") ∧
      rsCsv (read_run_style_table "Horse\tLto1\nA\t1") =
        rsCsv (read_run_style_table "Horse\tLto1\nA\t1") := by
  refine ⟨(C9_deterministic "A\nx\ny\n10 11" "A\nx\ny\n10 11" rfl).1, ?_, ?_, ?_⟩
  · exact (C9_deterministic "Horse\tLto1\nA\t1" "Horse\tLto1\nA\t1" rfl).2.1
  · exact (C9_deterministic "A\nx\ny\n10 11" "A\nx\ny\n10 11" rfl).2.2.1
  · exact (C9_deterministic "Horse\tLto1\nA\t1" "Horse\tLto1\nA\t1" rfl).2.2.2

/-! ## Claim C2 -/

/-- C2 counterexample: the run-style row "Bold Eagle" and the speed row
" bold eagle " (equal up to case and surrounding whitespace) do NOT merge —
the joined table has two rows, not one — because the join only strips
whitespace and is case-sensitive. -/
theorem C2_counterexample :
    (tab3_joined "Horse\tLto1\nBold Eagle\t5" " bold eagle \na\nb\n77").map
        List.length = some 2 ∧
      (tab3_joined "Horse\tLto1\nBold Eagle\t5" " bold eagle \na\nb\n77").map
        List.length ≠ some 1 := by
  have hfp : firstParse (rsText "Horse\tLto1\nBold Eagle\t5") =
      some ⟨["Horse", "Lto1"], [[some "Bold Eagle", some "5"]]⟩ := by decide
  have hrs : read_run_style_table "Horse\tLto1\nBold Eagle\t5" =
      some ⟨["Horse", "Lto1"],
        [[RSCell.str (some "Bold Eagle"), RSCell.num (toNumeric "5")]]⟩ := by
    simp only [read_run_style_table, hfp, Option.some_bind]
    rw [if_neg (by decide)]
    rw [show wantedCols.filter
        (· ∈ (⟨["Horse", "Lto1"], [[some "Bold Eagle", some "5"]]⟩ : PTable).cols) =
        ["Horse", "Lto1"] from by decide]
    simp [subsetCoerce]
  have hsp : parse_speed_blocks " bold eagle \na\nb\n77" =
      [⟨"bold eagle", some 77, some 77, some 77, some 77, some 77, topMarker⟩] := by
    have hx : extract_from_block ["bold eagle", "a", "b", "77"] =
        ⟨"bold eagle", some 77, some 77, some 77, some 77⟩ := by
      have h4 : ¬(["bold eagle", "a", "b", "77"] : List String).length < 4 := by decide
      have ht : truncLine ["bold eagle", "a", "b", "77"] ≠ "" := by decide
      have hfig : figuresOf ["bold eagle", "a", "b", "77"] = [77] := by decide
      have hf : figuresOf ["bold eagle", "a", "b", "77"] ≠ [] := by rw [hfig]; decide
      rw [extract_pos _ h4 ht hf, hfig]
      simp [SpeedRow.mk.injEq]
      exact ⟨by decide, by norm_num [round1, rhe]⟩
    have hbase : speedBaseRows " bold eagle \na\nb\n77" =
        [⟨"bold eagle", some 77, some 77, some 77, some 77⟩] := by
      have hlines : speedLines " bold eagle \na\nb\n77" =
          ["bold eagle", "a", "b", "77"] := by decide
      have hchunk : chunk11 (["bold eagle", "a", "b", "77"] : List String) =
          [["bold eagle", "a", "b", "77"]] := by decide
      rw [speedBaseRows, hlines, hchunk, List.map_cons, List.map_nil, hx]
    simp only [parse_speed_blocks]
    rw [hbase]
    simp [finishRow, optMax, avg_key, mark_top, eqSome]
    norm_num [round1, rhe]
  have hlen : (tab3_joined "Horse\tLto1\nBold Eagle\t5" " bold eagle \na\nb\n77").map
      List.length = some 2 := by
    simp only [tab3_joined, hrs, Option.some_bind, hsp]
    have e1 : pyStrip "bold eagle" = "bold eagle" := by decide
    have e2 : pyStrip "Bold Eagle" = "Bold Eagle" := by decide
    simp [joinTables, stripKeyCell, stripCellStr, e1, e2]
    decide
  refine ⟨hlen, ?_⟩
  rw [hlen]
  decide

/-- C2 (amended): the join matches identities whitespace-insensitively but
case-sensitively — a speed row and a run-style row whose names agree after
stripping leading and trailing whitespace merge into one joined row. -/
theorem C2_strip_only_matching (n₁ n₂ : String) (h : pyStrip n₁ = pyStrip n₂)
    (r : SpeedFullRow) (hr : r.horseName = n₁) (x : RSCell) :
    (joinTables [r] ⟨["Horse", "Lto1"], [[RSCell.str (some n₂), x]]⟩).map
      List.length = some 1 := by
  simp [joinTables, stripCellStr, stripKeyCell, hr, h]

/-- C2 witness: "Bold Eagle" and " Bold Eagle " (same letters, extra
whitespace) merge into a single joined row. -/
theorem C2_witness :
    pyStrip "Bold Eagle" = pyStrip " Bold Eagle " ∧
      (joinTables [⟨"Bold Eagle", none, none, none, none, none, ""⟩]
          ⟨["Horse", "Lto1"],
            [[RSCell.str (some " Bold Eagle "), RSCell.num none]]⟩).map
        List.length = some 1 :=
  ⟨by decide,
    C2_strip_only_matching "Bold Eagle" " Bold Eagle " (by decide)
      ⟨"Bold Eagle", none, none, none, none, none, ""⟩ rfl (RSCell.num none)⟩
